import Mathlib

/-!
Shallow embedding of the serialization layer and the `set_config` operation of
the Bitcoin canister, together with proofs of the spec's codec and ordering
properties.

Bytes are modelled as natural numbers below 256; byte strings as `List Nat`.
Machine integers (`u32`, `u64`, `u128`) are modelled as `Nat` with explicit
bounds where overflow matters.
-/

namespace BitcoinCanister

/-! ## Byte-level primitives -/

/-- Little-endian 4-byte encoding of a `u32` (`u32::to_le_bytes`). -/
def toLe32 (n : Nat) : List Nat :=
  [n % 256, n / 256 % 256, n / 256 ^ 2 % 256, n / 256 ^ 3 % 256]

/-- `u32::from_le_bytes` on a 4-byte list (callers guarantee the length). -/
def fromLe32 (b : List Nat) : Nat :=
  match b with
  | [a, b, c, d] => a + 256 * b + 256 ^ 2 * c + 256 ^ 3 * d
  | _ => 0

/-- Little-endian 8-byte encoding of a `u64` (`u64::to_le_bytes`). -/
def toLe64 (n : Nat) : List Nat :=
  [n % 256, n / 256 % 256, n / 256 ^ 2 % 256, n / 256 ^ 3 % 256,
   n / 256 ^ 4 % 256, n / 256 ^ 5 % 256, n / 256 ^ 6 % 256, n / 256 ^ 7 % 256]

/-- `u64::from_le_bytes` on an 8-byte list (callers guarantee the length). -/
def fromLe64 (b : List Nat) : Nat :=
  match b with
  | [a, b, c, d, e, f, g, h] =>
      a + 256 * b + 256 ^ 2 * c + 256 ^ 3 * d + 256 ^ 4 * e + 256 ^ 5 * f +
        256 ^ 6 * g + 256 ^ 7 * h
  | _ => 0

/-- Big-endian 4-byte encoding of a `u32` (`u32::to_be_bytes`). -/
def toBe32 (n : Nat) : List Nat :=
  [n / 256 ^ 3 % 256, n / 256 ^ 2 % 256, n / 256 % 256, n % 256]

/-- `u32::from_be_bytes` on a 4-byte list (callers guarantee the length). -/
def fromBe32 (b : List Nat) : Nat :=
  match b with
  | [a, b, c, d] => 256 ^ 3 * a + 256 ^ 2 * b + 256 * c + d
  | _ => 0

/-- Unsigned lexicographic strict order on byte strings, matching the `Ord`
instance on Rust `Vec<u8>`/`&[u8]` (and the key order of the stable maps):
a strict prefix is smaller. -/
def lexLt : List Nat → List Nat → Bool
  | [], [] => false
  | [], _ :: _ => true
  | _ :: _, [] => false
  | x :: xs, y :: ys => if x < y then true else if x = y then lexLt xs ys else false

/-! ## Supporting lemmas on the primitives -/

set_option maxRecDepth 4096 in
theorem xor255_fin : ∀ b : Fin 256, b.val ^^^ 255 = 255 - b.val := by decide

theorem xor255 (b : Nat) (hb : b < 256) : b ^^^ 255 = 255 - b :=
  xor255_fin ⟨b, hb⟩

theorem fromLe32_toLe32 (n : Nat) (h : n < 2 ^ 32) : fromLe32 (toLe32 n) = n := by
  simp only [toLe32, fromLe32]
  omega

theorem fromLe64_toLe64 (n : Nat) (h : n < 2 ^ 64) : fromLe64 (toLe64 n) = n := by
  simp only [toLe64, fromLe64]
  omega

theorem fromBe32_toBe32 (n : Nat) (h : n < 2 ^ 32) : fromBe32 (toBe32 n) = n := by
  simp only [toBe32, fromBe32]
  omega

theorem lexLt_cons (x y : Nat) (xs ys : List Nat) :
    lexLt (x :: xs) (y :: ys) = true ↔ x < y ∨ (x = y ∧ lexLt xs ys = true) := by
  simp only [lexLt]
  split_ifs with h1 h2 <;> simp_all

theorem lexLt_append (a : List Nat) :
    ∀ b x y, a.length = b.length →
      lexLt (a ++ x) (b ++ y) =
        (if lexLt a b then true else if a = b then lexLt x y else false) := by
  induction a with
  | nil =>
      intro b x y hlen
      have hb : b = [] := by
        cases b with
        | nil => rfl
        | cons q b' => simp at hlen
      subst hb
      simp [lexLt]
  | cons p a' ih =>
      intro b x y hlen
      cases b with
      | nil => simp at hlen
      | cons q b' =>
          have hlen' : a'.length = b'.length := by simpa using hlen
          by_cases hpq : p < q
          · simp [lexLt, hpq]
          · by_cases heq : p = q
            · subst heq
              have hrec := ih b' x y hlen'
              by_cases hab : a' = b'
              · subst hab
                simp [lexLt, hrec]
              · have hcons : (p :: a' = p :: b') = False := by simp [hab]
                simp [lexLt, hrec, hab, hcons]
            · simp [lexLt, hpq, heq]

/-! ## Data model (`src/types.rs` and `canister/src/types.rs`)

A `Txid` is an opaque byte vector (32 bytes for real transactions); an
`Address` in the codec layer is its UTF-8 byte string. -/

/-- `OutPoint { txid: Vec<u8>, vout: u32 }`. -/
structure OutPoint where
  txid : List Nat
  vout : Nat
  deriving DecidableEq, Repr

/-- `TxOut { value: u64, script_pubkey: Vec<u8> }`. -/
structure TxOut where
  value : Nat
  script_pubkey : List Nat
  deriving DecidableEq, Repr

/-! ## Codecs -/

/-- `Storable::to_bytes` for `OutPoint`: txid (32 bytes) then vout
little-endian (4 bytes).  The source asserts the result is exactly 36 bytes,
i.e. that the txid is 32 bytes. -/
def OutPoint.toBytes (o : OutPoint) : List Nat :=
  o.txid ++ toLe32 o.vout

/-- `Storable::from_bytes` for `OutPoint` on a 36-byte input (the source
asserts `bytes.len() == 36`): first 32 bytes are the txid, last 4 the
little-endian vout. -/
def OutPoint.fromBytes (b : List Nat) : OutPoint :=
  { txid := b.take 32, vout := fromLe32 (b.drop 32) }

/-- `Storable::to_bytes` for `(TxOut, Height)`: height little-endian (4),
value little-endian (8), then the script. -/
def txOutHeightToBytes (x : TxOut) (h : Nat) : List Nat :=
  toLe32 h ++ toLe64 x.value ++ x.script_pubkey

/-- `Storable::from_bytes` for `(TxOut, Height)`: height from the first 4
bytes, value from bytes 4..12, script is the remainder (`split_off(12)`). -/
def txOutHeightFromBytes (b : List Nat) : TxOut × Nat :=
  ({ value := fromLe64 ((b.drop 4).take 8), script_pubkey := b.drop 12 },
   fromLe32 (b.take 4))

/-- `Storable::to_bytes` for `Height`: big-endian bytes, each XORed with 255,
so stored entries sort in descending height order. -/
def heightToBytes (h : Nat) : List Nat :=
  (toBe32 h).map (fun byte => byte ^^^ 255)

/-- `Storable::from_bytes` for `Height`: XOR each byte with 255 and read
big-endian (the source's `try_into` requires exactly 4 bytes). -/
def heightFromBytes (b : List Nat) : Nat :=
  fromBe32 (b.map (fun byte => byte ^^^ 255))

/-- `Storable::to_bytes` for `Address` (`src/types.rs`): a length byte
(`len()` as u8, the source panics when the length exceeds 255) followed by the
UTF-8 bytes. -/
def addressToBytes (a : List Nat) : List Nat :=
  a.length :: a

/-- `Storable::from_bytes` for `Address` (`src/types.rs`): the first byte is
the length `L`; the address is bytes `1..L+1`. -/
def addressFromBytes (b : List Nat) : List Nat :=
  (b.drop 1).take (b.headD 0)

/-- `Storable::to_bytes` for `(Address, Height, OutPoint)` (`src/types.rs`):
length-prefixed address, then the XORed big-endian height, then the
outpoint. -/
def ahoToBytes (a : List Nat) (h : Nat) (o : OutPoint) : List Nat :=
  addressToBytes a ++ heightToBytes h ++ o.toBytes

/-- `Storable::from_bytes` for `(Address, Height, OutPoint)`
(`src/types.rs`): with `L` the first byte, the outpoint starts at offset
`L + 5`, the height at offset `L + 1`, and the address occupies the first
`L + 1` bytes. -/
def ahoFromBytes (b : List Nat) : List Nat × Nat × OutPoint :=
  let addrLen := b.headD 0
  let outpointBytes := b.drop (addrLen + 5)
  let heightBytes := (b.take (addrLen + 5)).drop (addrLen + 1)
  let addrBytes := b.take (addrLen + 1)
  (addressFromBytes addrBytes, heightFromBytes heightBytes,
   OutPoint.fromBytes outpointBytes)

/-- `StableStructuresStorable::to_bytes` for `AddressUtxo`
(`canister/src/types.rs`): the raw address bytes (no length prefix), then the
XORed big-endian height, then the outpoint. -/
def addressUtxoToBytes (a : List Nat) (h : Nat) (o : OutPoint) : List Nat :=
  a ++ heightToBytes h ++ o.toBytes

/-- `StableStructuresStorable::from_bytes` for `AddressUtxo`
(`canister/src/types.rs`): the outpoint is the last 36 bytes
(`OUTPOINT_SIZE`), the height the 4 bytes before it, the address the rest. -/
def addressUtxoFromBytes (b : List Nat) : List Nat × Nat × OutPoint :=
  let outpointBytes := b.drop (b.length - 36)
  let rest := b.take (b.length - 36)
  let heightBytes := rest.drop (rest.length - 4)
  let addrBytes := rest.take (rest.length - 4)
  (addrBytes, heightFromBytes heightBytes, OutPoint.fromBytes outpointBytes)

/-! ## Codec round-trip lemmas -/

theorem toLe32_length (n : Nat) : (toLe32 n).length = 4 := by simp [toLe32]

theorem toLe64_length (n : Nat) : (toLe64 n).length = 8 := by simp [toLe64]

theorem heightToBytes_length (h : Nat) : (heightToBytes h).length = 4 := by
  simp [heightToBytes, toBe32]

theorem opToBytes_length (o : OutPoint) (ht : o.txid.length = 32) :
    o.toBytes.length = 36 := by
  simp [OutPoint.toBytes, toLe32, ht]

theorem op_fromBytes_toBytes (o : OutPoint) (ht : o.txid.length = 32)
    (hv : o.vout < 2 ^ 32) : OutPoint.fromBytes o.toBytes = o := by
  unfold OutPoint.fromBytes OutPoint.toBytes
  rw [List.take_left' ht, List.drop_left' ht, fromLe32_toLe32 _ hv]

theorem txOutHeight_fromBytes_toBytes (x : TxOut) (h : Nat)
    (hh : h < 2 ^ 32) (hv : x.value < 2 ^ 64) :
    txOutHeightFromBytes (txOutHeightToBytes x h) = (x, h) := by
  unfold txOutHeightFromBytes txOutHeightToBytes
  rw [List.append_assoc]
  rw [List.take_left' (toLe32_length h), List.drop_left' (toLe32_length h),
    List.take_left' (toLe64_length x.value)]
  rw [show (12 : Nat) = (toLe32 h).length + 8 by simp [toLe32], List.drop_append,
    List.drop_left' (toLe64_length x.value)]
  rw [fromLe32_toLe32 _ hh, fromLe64_toLe64 _ hv]

theorem height_fromBytes_toBytes (h : Nat) (hh : h < 2 ^ 32) :
    heightFromBytes (heightToBytes h) = h := by
  unfold heightFromBytes heightToBytes
  rw [List.map_map]
  have hcomp : ((fun byte => byte ^^^ 255) ∘ fun byte : Nat => byte ^^^ 255) = id := by
    funext b
    simp [Function.comp, Nat.xor_assoc]
  rw [hcomp, List.map_id, fromBe32_toBe32 _ hh]

theorem aho_fromBytes_toBytes (a : List Nat) (h : Nat) (o : OutPoint)
    (ha : a.length ≤ 255) (ht : o.txid.length = 32) (hh : h < 2 ^ 32)
    (hv : o.vout < 2 ^ 32) : ahoFromBytes (ahoToBytes a h o) = (a, h, o) := by
  have hB : ahoToBytes a h o =
      a.length :: (a ++ (heightToBytes h ++ o.toBytes)) := by
    simp [ahoToBytes, addressToBytes]
  unfold ahoFromBytes
  rw [hB]
  simp only [List.headD_cons]
  have hdrop : (a.length :: (a ++ (heightToBytes h ++ o.toBytes))).drop
      (a.length + 5) = o.toBytes := by
    rw [show a.length + 5 = (a.length + 4) + 1 by omega, List.drop_succ_cons,
      show a.length + 4 = a.length + 4 from rfl, List.drop_append 4,
      List.drop_left' (heightToBytes_length h)]
  have htake : (a.length :: (a ++ (heightToBytes h ++ o.toBytes))).take
      (a.length + 5) = a.length :: (a ++ heightToBytes h) := by
    rw [show a.length + 5 = (a.length + 4) + 1 by omega, List.take_succ_cons,
      List.take_append 4, List.take_left' (heightToBytes_length h)]
  rw [hdrop, htake]
  have hheight : (a.length :: (a ++ heightToBytes h)).drop (a.length + 1) =
      heightToBytes h := by
    rw [show a.length + 1 = a.length + 1 from rfl, List.drop_succ_cons,
      List.drop_left]
  have haddr : (a.length :: (a ++ (heightToBytes h ++ o.toBytes))).take
      (a.length + 1) = a.length :: a := by
    rw [List.take_succ_cons, List.take_left]
  rw [hheight, haddr]
  have haddr' : addressFromBytes (a.length :: a) = a := by
    simp [addressFromBytes]
  rw [haddr', height_fromBytes_toBytes h hh, op_fromBytes_toBytes o ht hv]

theorem addressUtxo_fromBytes_toBytes (a : List Nat) (h : Nat) (o : OutPoint)
    (ht : o.txid.length = 32) (hh : h < 2 ^ 32) (hv : o.vout < 2 ^ 32) :
    addressUtxoFromBytes (addressUtxoToBytes a h o) = (a, h, o) := by
  have hB : addressUtxoToBytes a h o = (a ++ heightToBytes h) ++ o.toBytes := by
    simp [addressUtxoToBytes]
  have hlen : ((a ++ heightToBytes h) ++ o.toBytes).length = a.length + 40 := by
    simp [heightToBytes_length, opToBytes_length o ht]
  have hlen2 : (a ++ heightToBytes h).length = a.length + 4 := by
    simp [heightToBytes_length]
  simp only [addressUtxoFromBytes]
  rw [hB, hlen]
  rw [show a.length + 40 - 36 = a.length + 4 by omega]
  rw [List.drop_left' hlen2, List.take_left' hlen2, hlen2]
  rw [show a.length + 4 - 4 = a.length by omega]
  rw [List.drop_left, List.take_left]
  rw [height_fromBytes_toBytes h hh, op_fromBytes_toBytes o ht hv]

/-- **C1.** Codec round-trip: decoding the encoding returns the original value
for every `Storable` implementation — outpoints with 32-byte txids,
`(TxOut, Nat)` pairs, heights, the length-prefixed `(Address, Nat,
OutPoint)` composite keys with address length at most 255, and the canister's
`AddressUtxo` composite keys. -/
theorem c1_codec_roundtrip (o : OutPoint) (x : TxOut) (h : Nat) (a : List Nat)
    (ho : o.txid.length = 32) (hvout : o.vout < 2 ^ 32)
    (hval : x.value < 2 ^ 64) (hh : h < 2 ^ 32) (ha : a.length ≤ 255) :
    OutPoint.fromBytes o.toBytes = o ∧
    txOutHeightFromBytes (txOutHeightToBytes x h) = (x, h) ∧
    heightFromBytes (heightToBytes h) = h ∧
    ahoFromBytes (ahoToBytes a h o) = (a, h, o) ∧
    addressUtxoFromBytes (addressUtxoToBytes a h o) = (a, h, o) :=
  ⟨op_fromBytes_toBytes o ho hvout,
   txOutHeight_fromBytes_toBytes x h hh hval,
   height_fromBytes_toBytes h hh,
   aho_fromBytes_toBytes a h o ha ho hh hvout,
   addressUtxo_fromBytes_toBytes a h o ho hh hvout⟩

/-- Witness for C1 at a concrete outpoint, output, height and address. -/
theorem c1_codec_roundtrip_witness :
    OutPoint.fromBytes (OutPoint.toBytes ⟨List.replicate 32 7, 300⟩) =
      ⟨List.replicate 32 7, 300⟩ ∧
    txOutHeightFromBytes (txOutHeightToBytes ⟨5000000000, [1, 2, 3]⟩ 9) =
      (⟨5000000000, [1, 2, 3]⟩, 9) ∧
    heightFromBytes (heightToBytes 9) = 9 ∧
    ahoFromBytes (ahoToBytes [97, 98] 9 ⟨List.replicate 32 7, 300⟩) =
      ([97, 98], 9, ⟨List.replicate 32 7, 300⟩) ∧
    addressUtxoFromBytes (addressUtxoToBytes [97, 98] 9 ⟨List.replicate 32 7, 300⟩) =
      ([97, 98], 9, ⟨List.replicate 32 7, 300⟩) :=
  c1_codec_roundtrip ⟨List.replicate 32 7, 300⟩ ⟨5000000000, [1, 2, 3]⟩ 9 [97, 98]
    (by decide) (by decide) (by decide) (by decide) (by decide)

/-! ## C2: height key ordering -/

theorem heightToBytes_eq (h : Nat) :
    heightToBytes h = [255 - h / 256 ^ 3 % 256, 255 - h / 256 ^ 2 % 256,
      255 - h / 256 % 256, 255 - h % 256] := by
  unfold heightToBytes toBe32
  simp only [List.map_cons, List.map_nil]
  rw [xor255 _ (Nat.mod_lt _ (by norm_num)), xor255 _ (Nat.mod_lt _ (by norm_num)),
    xor255 _ (Nat.mod_lt _ (by norm_num)), xor255 _ (Nat.mod_lt _ (by norm_num))]

theorem lexLt_iff_value (a b c d e f g k : Nat)
    (ha : a < 256) (hb : b < 256) (hc : c < 256) (hd : d < 256)
    (he : e < 256) (hf : f < 256) (hg : g < 256) (hk : k < 256) :
    lexLt [a, b, c, d] [e, f, g, k] = true ↔
      256 ^ 3 * a + 256 ^ 2 * b + 256 * c + d <
        256 ^ 3 * e + 256 ^ 2 * f + 256 * g + k := by
  simp only [lexLt_cons]
  simp only [show lexLt [] [] = false from rfl, Bool.false_eq_true, and_false,
    or_false]
  omega

/-- **C2.** Nat key-order reversal: for heights `h1 < h2` (both `u32`), the
encoded key of `h2` is strictly smaller than the encoded key of `h1` under
unsigned lexicographic byte order. -/
theorem c2_height_key_order_reversal (h1 h2 : Nat) (hlt : h1 < h2)
    (hub : h2 < 2 ^ 32) : lexLt (heightToBytes h2) (heightToBytes h1) = true := by
  rw [heightToBytes_eq, heightToBytes_eq, lexLt_iff_value] <;> omega

/-- Witness for C2 at heights 1 and 256. -/
theorem c2_height_key_order_reversal_witness :
    lexLt (heightToBytes 256) (heightToBytes 1) = true :=
  c2_height_key_order_reversal 1 256 (by decide) (by decide)

/-! ## C4: `OutPoint` derived order versus serialization order -/

/-- The derived `Ord` on `OutPoint` (`#[derive(Ord)]` with fields in
declaration order): txid bytes lexicographically, then numeric vout. -/
def opDerivedLt (o1 o2 : OutPoint) : Bool :=
  if lexLt o1.txid o2.txid then true
  else if o1.txid = o2.txid then decide (o1.vout < o2.vout)
  else false

/-- **C4 counterexample.** With equal txids and vouts 1 and 256, the derived
order says `o1 < o2` but the 36-byte encodings compare the other way, because
the vout is serialized little-endian: the claimed equivalence fails. -/
theorem c4_counterexample :
    ¬ (opDerivedLt ⟨List.replicate 32 0, 1⟩ ⟨List.replicate 32 0, 256⟩ = true ↔
       lexLt (OutPoint.toBytes ⟨List.replicate 32 0, 1⟩)
         (OutPoint.toBytes ⟨List.replicate 32 0, 256⟩) = true) := by
  decide

theorem toLe32_of_lt_256 (v : Nat) (hv : v < 256) : toLe32 v = [v, 0, 0, 0] := by
  simp only [toLe32, List.cons.injEq, and_true]
  omega

/-- **C4 (amended).** For outpoints with 32-byte txids whose vouts are both
below 256 (so that the little-endian vout bytes compare like the numbers), the
derived order agrees with unsigned lexicographic order on the 36-byte
serialization. -/
theorem c4_derived_order_agrees_on_bytes (o1 o2 : OutPoint)
    (h1 : o1.txid.length = 32) (h2 : o2.txid.length = 32)
    (hv1 : o1.vout < 256) (hv2 : o2.vout < 256) :
    (opDerivedLt o1 o2 = true ↔
      lexLt (OutPoint.toBytes o1) (OutPoint.toBytes o2) = true) := by
  have hlen : o1.txid.length = o2.txid.length := by rw [h1, h2]
  unfold opDerivedLt OutPoint.toBytes
  rw [toLe32_of_lt_256 _ hv1, toLe32_of_lt_256 _ hv2, lexLt_append _ _ _ _ hlen]
  split_ifs with hlex heq <;>
    simp_all [lexLt_cons, lexLt, decide_eq_true_iff]

/-- Witness for the amended C4 at two concrete outpoints. -/
theorem c4_derived_order_agrees_on_bytes_witness :
    (opDerivedLt ⟨List.replicate 32 0, 1⟩ ⟨List.replicate 32 0, 2⟩ = true ↔
      lexLt (OutPoint.toBytes ⟨List.replicate 32 0, 1⟩)
        (OutPoint.toBytes ⟨List.replicate 32 0, 2⟩) = true) :=
  c4_derived_order_agrees_on_bytes ⟨List.replicate 32 0, 1⟩ ⟨List.replicate 32 0, 2⟩
    (by decide) (by decide) (by decide) (by decide)

/-! ## Pagination cursor (`Page`) -/

/-- `Page { tip_block_hash: BlockHash, height: Height, outpoint: OutPoint }`,
the cut-off point for chunked UTXO results. -/
structure Page where
  tip_block_hash : List Nat
  height : Nat
  outpoint : OutPoint
  deriving DecidableEq, Repr

/-- Outcome of a Rust decoder applied to untrusted bytes: a decoded value, a
typed `Err(String)`, or a panic/trap (a failed `assert!`, an out-of-bounds
`Vec::split_off`, or an `expect`). -/
inductive DecodeResult (α : Type) where
  | ok : α → DecodeResult α
  | err : String → DecodeResult α
  | trap : DecodeResult α
  deriving DecidableEq, Repr

/-- `Page::to_bytes`: tip block hash, then the XORed big-endian height, then
the encoded outpoint. -/
def Page.toBytes (p : Page) : List Nat :=
  p.tip_block_hash ++ heightToBytes p.height ++ p.outpoint.toBytes

/-- `Page::from_bytes` (`canister/src/types.rs`), panics modelled explicitly:
`bytes.split_off(36)` panics when fewer than 36 bytes are supplied; the tip
hash parse and the height `try_into` report typed errors (both unreachable
after the splits succeed); `OutPoint::from_bytes` asserts that the trailing
portion is exactly 36 bytes and panics otherwise. -/
def Page.fromBytes (bytes : List Nat) : DecodeResult Page :=
  if bytes.length < 36 then .trap
  else
    let outpointBytes := bytes.drop 36
    let rest := bytes.take 36
    let heightBytes := rest.drop 32
    let hashBytes := rest.take 32
    if hashBytes.length ≠ 32 then .err "Could not parse tip block hash"
    else if heightBytes.length ≠ 4 then .err "Could not parse page height"
    else if outpointBytes.length ≠ 36 then .trap
    else .ok { tip_block_hash := hashBytes,
               height := heightFromBytes heightBytes,
               outpoint := OutPoint.fromBytes outpointBytes }

/-- **C3.** The claim says `Page::from_bytes` never panics on untrusted
cursors, in particular not on inputs shorter than 72 bytes.  The code panics:
a 40-byte cursor reaches the `assert_eq!(bytes.len(), 36)` in
`OutPoint::from_bytes` with a 4-byte remainder, and an empty cursor makes
`bytes.split_off(36)` panic outright. -/
theorem c3_page_from_bytes_panics :
    Page.fromBytes (List.replicate 40 0) = DecodeResult.trap ∧
    Page.fromBytes [] = DecodeResult.trap := by
  constructor <;> rfl

/-- **C5.** Pagination cursor layout and round-trip: for a page with a
32-byte tip hash and a 32-byte outpoint txid, `Page::to_bytes` produces
exactly 72 bytes laid out `tip_hash(32) ‖ xor_be_height(4) ‖ outpoint(36)`,
and `Page::from_bytes` returns `Ok` of an equal page. -/
theorem c5_page_layout_roundtrip (p : Page)
    (hhash : p.tip_block_hash.length = 32) (htxid : p.outpoint.txid.length = 32)
    (hh : p.height < 2 ^ 32) (hv : p.outpoint.vout < 2 ^ 32) :
    p.toBytes.length = 72 ∧
    p.toBytes = p.tip_block_hash ++ heightToBytes p.height ++ p.outpoint.toBytes ∧
    Page.fromBytes p.toBytes = .ok p := by
  have hop := opToBytes_length p.outpoint htxid
  have hlen : p.toBytes.length = 72 := by
    simp [Page.toBytes, hhash, heightToBytes_length, hop]
  refine ⟨hlen, rfl, ?_⟩
  have hpre : (p.tip_block_hash ++ heightToBytes p.height).length = 36 := by
    simp [hhash, heightToBytes_length]
  show Page.fromBytes
      ((p.tip_block_hash ++ heightToBytes p.height) ++ p.outpoint.toBytes) = .ok p
  simp only [Page.fromBytes]
  rw [List.drop_left' hpre, List.take_left' hpre, List.take_left' hhash,
    List.drop_left' hhash]
  rw [if_neg (by simp [List.length_append, hhash, heightToBytes_length, hop]),
    if_neg (by simp [hhash]), if_neg (by simp [heightToBytes_length]),
    if_neg (by simp [hop])]
  rw [height_fromBytes_toBytes p.height hh, op_fromBytes_toBytes p.outpoint htxid hv]

/-- Witness for C5 at a concrete page. -/
theorem c5_page_layout_roundtrip_witness :
    (Page.toBytes ⟨List.replicate 32 1, 77, ⟨List.replicate 32 2, 3⟩⟩).length = 72 ∧
    Page.toBytes ⟨List.replicate 32 1, 77, ⟨List.replicate 32 2, 3⟩⟩ =
      List.replicate 32 1 ++ heightToBytes 77 ++
        OutPoint.toBytes ⟨List.replicate 32 2, 3⟩ ∧
    Page.fromBytes (Page.toBytes ⟨List.replicate 32 1, 77, ⟨List.replicate 32 2, 3⟩⟩) =
      .ok ⟨List.replicate 32 1, 77, ⟨List.replicate 32 2, 3⟩⟩ :=
  c5_page_layout_roundtrip ⟨List.replicate 32 1, 77, ⟨List.replicate 32 2, 3⟩⟩
    (by decide) (by decide) (by decide) (by decide)

/-! ## `set_config` (`canister/src/api/set_config.rs`) -/

/-- Modelled from the spec: the syncing `Flag` is enabled or disabled; its
declaration lives outside `src/` (only its uses appear there). -/
inductive Flag where
  | enabled
  | disabled
  deriving DecidableEq, Repr

/-- Modelled from the spec: `Fees` is a record of five `u128` amounts
(`get_utxos`, `get_balance`, `get_current_fee_percentiles`,
`send_transaction_base`, `send_transaction_per_byte`); its declaration lives
outside `src/`. -/
structure Fees where
  get_utxos : Nat
  get_balance : Nat
  get_current_fee_percentiles : Nat
  send_transaction_base : Nat
  send_transaction_per_byte : Nat
  deriving DecidableEq, Repr

/-- Modelled from the spec:
`set_config{syncing: ?Flag, fees: ?Fees, stability_threshold: ?u128}`; the
request type's declaration lives outside `src/`. -/
structure SetConfigRequest where
  syncing : Option Flag
  fees : Option Fees
  stability_threshold : Option Nat
  deriving DecidableEq, Repr

/-- Modelled from the spec: the unstable-blocks component carries its
stability threshold `k` (a `u32`) beside the block tree; the tree itself is
opaque here (type parameter `T`). -/
structure UnstableBlocks (T : Type) where
  stability_threshold : Nat
  tree : T

/-- Modelled from the spec: `set_stability_threshold(k')` updates `k` and
does not itself trigger promotion — it only writes the field. -/
def UnstableBlocks.set_stability_threshold {T : Type} (b : UnstableBlocks T)
    (k : Nat) : UnstableBlocks T :=
  { b with stability_threshold := k }

/-- The syncing state: the flag written by `set_config` plus whatever else
the component holds (opaque, type parameter `V`). -/
structure SyncingState (V : Type) where
  syncing : Flag
  rest : V

/-- The canister state as seen by `set_config`: the syncing state, the fees,
the unstable-blocks component, and everything else — UTXO maps, balances,
`next_height` — abstracted as `utxos : U`, which `set_config` never
touches. -/
structure State (U T V : Type) where
  syncing_state : SyncingState V
  fees : Fees
  unstable_blocks : UnstableBlocks T
  utxos : U

/-- `set_config`: each `Some` field is applied in order (syncing, fees,
stability threshold).  The `u128 → u32` conversion uses
`try_into().expect(...)`, so a threshold above `u32::MAX` panics; the
activation then traps and every partial mutation is rolled back, modelled as
`none`. -/
def set_config {U T V : Type} (request : SetConfigRequest) (s : State U T V) :
    Option (State U T V) :=
  let s1 := match request.syncing with
    | some syncing =>
        { s with syncing_state := { s.syncing_state with syncing := syncing } }
    | none => s
  let s2 := match request.fees with
    | some fees => { s1 with fees := fees }
    | none => s1
  match request.stability_threshold with
  | some stability_threshold =>
      if stability_threshold < 2 ^ 32 then
        some { s2 with unstable_blocks :=
          s2.unstable_blocks.set_stability_threshold stability_threshold }
      else none
  | none => some s2

/-- **C6.** `set_config` stability-threshold bound: with
`stability_threshold = Some t`, the call fails (trapping before any new
threshold is stored) when `t` exceeds `u32::MAX`, and otherwise stores
exactly `t` as the unstable-blocks stability threshold while leaving the
block tree — hence promotion — untouched. -/
theorem c6_set_config_stability_threshold {U T V : Type} (r : SetConfigRequest)
    (s : State U T V) (t : Nat) (hr : r.stability_threshold = some t) :
    (2 ^ 32 ≤ t → set_config r s = none) ∧
    (t < 2 ^ 32 →
      (set_config r s).map (fun s' => s'.unstable_blocks.stability_threshold) =
        some t ∧
      (set_config r s).map (fun s' => s'.unstable_blocks.tree) =
        some s.unstable_blocks.tree) := by
  obtain ⟨sy, fe, st⟩ := r
  simp only at hr
  subst hr
  constructor
  · intro h
    cases sy <;> cases fe <;>
      simp [set_config, UnstableBlocks.set_stability_threshold] <;> omega
  · intro h
    cases sy <;> cases fe <;>
      simp [set_config, UnstableBlocks.set_stability_threshold, h] <;> omega

/-- Witness for C6 at a concrete request and state. -/
theorem c6_set_config_stability_threshold_witness :
    (2 ^ 32 ≤ 5 →
      set_config ⟨some Flag.enabled, none, some 5⟩
        (⟨⟨Flag.disabled, 0⟩, ⟨0, 0, 0, 0, 0⟩, ⟨1, 0⟩, 0⟩ : State Nat Nat Nat) =
        none) ∧
    (5 < 2 ^ 32 →
      ((set_config ⟨some Flag.enabled, none, some 5⟩
          (⟨⟨Flag.disabled, 0⟩, ⟨0, 0, 0, 0, 0⟩, ⟨1, 0⟩, 0⟩ : State Nat Nat Nat)).map
        (fun s' => s'.unstable_blocks.stability_threshold) = some 5 ∧
      (set_config ⟨some Flag.enabled, none, some 5⟩
          (⟨⟨Flag.disabled, 0⟩, ⟨0, 0, 0, 0, 0⟩, ⟨1, 0⟩, 0⟩ : State Nat Nat Nat)).map
        (fun s' => s'.unstable_blocks.tree) = some 0)) :=
  c6_set_config_stability_threshold ⟨some Flag.enabled, none, some 5⟩
    ⟨⟨Flag.disabled, 0⟩, ⟨0, 0, 0, 0, 0⟩, ⟨1, 0⟩, 0⟩ 5 rfl

/-- **C9.** `set_config` frame effect: on a successful call, each of the three
configurable fields is modified exactly when its request entry is `Some`, and
everything else — the UTXO state, the unstable-blocks tree, the rest of the
syncing state — is unchanged. -/
theorem c9_set_config_frame {U T V : Type} (r : SetConfigRequest)
    (s s' : State U T V) (h : set_config r s = some s') :
    s'.utxos = s.utxos ∧
    s'.unstable_blocks.tree = s.unstable_blocks.tree ∧
    s'.syncing_state.rest = s.syncing_state.rest ∧
    (∀ f, r.syncing = some f → s'.syncing_state.syncing = f) ∧
    (r.syncing = none → s'.syncing_state.syncing = s.syncing_state.syncing) ∧
    (∀ fs, r.fees = some fs → s'.fees = fs) ∧
    (r.fees = none → s'.fees = s.fees) ∧
    (∀ t, r.stability_threshold = some t →
      s'.unstable_blocks.stability_threshold = t) ∧
    (r.stability_threshold = none →
      s'.unstable_blocks.stability_threshold =
        s.unstable_blocks.stability_threshold) := by
  obtain ⟨sy, fe, st⟩ := r
  cases sy <;> cases fe <;> cases st <;>
    simp only [set_config, UnstableBlocks.set_stability_threshold] at h
  all_goals try split_ifs at h with ht
  all_goals
    first
      | (rw [Option.some.injEq] at h
         subst h
         simp)
      | simp at h

/-- Witness for C9 at a concrete request and state. -/
theorem c9_set_config_frame_witness :
    ((⟨⟨Flag.enabled, 3⟩, ⟨0, 0, 0, 0, 0⟩, ⟨5, 9⟩, 4⟩ : State Nat Nat Nat).utxos =
      (⟨⟨Flag.disabled, 3⟩, ⟨0, 0, 0, 0, 0⟩, ⟨1, 9⟩, 4⟩ : State Nat Nat Nat).utxos ∧
     (⟨⟨Flag.enabled, 3⟩, ⟨0, 0, 0, 0, 0⟩, ⟨5, 9⟩, 4⟩ : State Nat Nat Nat).unstable_blocks.tree =
      (⟨⟨Flag.disabled, 3⟩, ⟨0, 0, 0, 0, 0⟩, ⟨1, 9⟩, 4⟩ : State Nat Nat Nat).unstable_blocks.tree ∧
     (⟨⟨Flag.enabled, 3⟩, ⟨0, 0, 0, 0, 0⟩, ⟨5, 9⟩, 4⟩ : State Nat Nat Nat).syncing_state.rest =
      (⟨⟨Flag.disabled, 3⟩, ⟨0, 0, 0, 0, 0⟩, ⟨1, 9⟩, 4⟩ : State Nat Nat Nat).syncing_state.rest ∧
     (∀ f, (⟨some Flag.enabled, none, some 5⟩ : SetConfigRequest).syncing = some f →
       (⟨⟨Flag.enabled, 3⟩, ⟨0, 0, 0, 0, 0⟩, ⟨5, 9⟩, 4⟩ : State Nat Nat Nat).syncing_state.syncing = f) ∧
     ((⟨some Flag.enabled, none, some 5⟩ : SetConfigRequest).syncing = none →
       (⟨⟨Flag.enabled, 3⟩, ⟨0, 0, 0, 0, 0⟩, ⟨5, 9⟩, 4⟩ : State Nat Nat Nat).syncing_state.syncing =
        (⟨⟨Flag.disabled, 3⟩, ⟨0, 0, 0, 0, 0⟩, ⟨1, 9⟩, 4⟩ : State Nat Nat Nat).syncing_state.syncing) ∧
     (∀ fs, (⟨some Flag.enabled, none, some 5⟩ : SetConfigRequest).fees = some fs →
       (⟨⟨Flag.enabled, 3⟩, ⟨0, 0, 0, 0, 0⟩, ⟨5, 9⟩, 4⟩ : State Nat Nat Nat).fees = fs) ∧
     ((⟨some Flag.enabled, none, some 5⟩ : SetConfigRequest).fees = none →
       (⟨⟨Flag.enabled, 3⟩, ⟨0, 0, 0, 0, 0⟩, ⟨5, 9⟩, 4⟩ : State Nat Nat Nat).fees =
        (⟨⟨Flag.disabled, 3⟩, ⟨0, 0, 0, 0, 0⟩, ⟨1, 9⟩, 4⟩ : State Nat Nat Nat).fees) ∧
     (∀ t, (⟨some Flag.enabled, none, some 5⟩ : SetConfigRequest).stability_threshold = some t →
       (⟨⟨Flag.enabled, 3⟩, ⟨0, 0, 0, 0, 0⟩, ⟨5, 9⟩, 4⟩ : State Nat Nat Nat).unstable_blocks.stability_threshold = t) ∧
     ((⟨some Flag.enabled, none, some 5⟩ : SetConfigRequest).stability_threshold = none →
       (⟨⟨Flag.enabled, 3⟩, ⟨0, 0, 0, 0, 0⟩, ⟨5, 9⟩, 4⟩ : State Nat Nat Nat).unstable_blocks.stability_threshold =
        (⟨⟨Flag.disabled, 3⟩, ⟨0, 0, 0, 0, 0⟩, ⟨1, 9⟩, 4⟩ : State Nat Nat Nat).unstable_blocks.stability_threshold)) :=
  c9_set_config_frame ⟨some Flag.enabled, none, some 5⟩
    ⟨⟨Flag.disabled, 3⟩, ⟨0, 0, 0, 0, 0⟩, ⟨1, 9⟩, 4⟩
    ⟨⟨Flag.enabled, 3⟩, ⟨0, 0, 0, 0, 0⟩, ⟨5, 9⟩, 4⟩ (by rfl)

/-! ## `Address::from_script` (`canister/src/types.rs`)

The bitcoin crate's `Address::from_script`, `Address::to_string` and
`Address::from_str` are external library code; they appear here as opaque
parameters `btcFromScript`, `btcToString`, `btcFromStr`.  `from_str` returns
an error on strings that are not valid Bitcoin addresses; the spec records in
particular that the empty string is not a valid address. -/

/-- `Network { Mainnet, Testnet, Regtest }`. -/
inductive Network where
  | mainnet
  | testnet
  | regtest
  deriving DecidableEq, Repr

/-- `InvalidAddress`, the error type of `Address::from_script`. -/
inductive InvalidAddress where
  | invalidAddress
  deriving DecidableEq, Repr

/-- `Address::from_script`: derive a bitcoin-crate address from the script
(`None` means no address exists for the script), render it to a string, and
accept it only if the string re-parses as a valid address — the guard against
rust-bitcoin issue 995. -/
def addressFromScript {Script BtcAddress : Type}
    (btcFromScript : Script → Network → Option BtcAddress)
    (btcToString : BtcAddress → String)
    (btcFromStr : String → Option BtcAddress)
    (script : Script) (network : Network) : Except InvalidAddress String :=
  match btcFromScript script network with
  | none => .error .invalidAddress
  | some address =>
      let address_str := btcToString address
      if (btcFromStr address_str).isSome then .ok address_str
      else .error .invalidAddress

/-- **C8.** `Address::from_script` is deterministic (it is a pure function of
the script and network); it returns `Err(InvalidAddress)` whenever the script
yields no address; every `Ok` string re-parses as a valid Bitcoin address;
and — given that the empty string is not a valid address — it never returns
the empty string. -/
theorem c8_address_from_script {Script BtcAddress : Type}
    (btcFromScript : Script → Network → Option BtcAddress)
    (btcToString : BtcAddress → String)
    (btcFromStr : String → Option BtcAddress)
    (script : Script) (network : Network)
    (hempty : btcFromStr "" = none) :
    (addressFromScript btcFromScript btcToString btcFromStr script network =
      addressFromScript btcFromScript btcToString btcFromStr script network) ∧
    (btcFromScript script network = none →
      addressFromScript btcFromScript btcToString btcFromStr script network =
        .error .invalidAddress) ∧
    (∀ a, addressFromScript btcFromScript btcToString btcFromStr script network =
        .ok a → (btcFromStr a).isSome) ∧
    (∀ a, addressFromScript btcFromScript btcToString btcFromStr script network =
        .ok a → a ≠ "") := by
  refine ⟨rfl, ?_, ?_, ?_⟩
  · intro hnone
    simp [addressFromScript, hnone]
  · intro a ha
    unfold addressFromScript at ha
    cases hbs : btcFromScript script network with
    | none => simp only [hbs] at ha; cases ha
    | some address =>
        simp only [hbs] at ha
        split_ifs at ha with hp
        cases ha
        exact hp
  · intro a ha hempty'
    unfold addressFromScript at ha
    cases hbs : btcFromScript script network with
    | none => simp only [hbs] at ha; cases ha
    | some address =>
        simp only [hbs] at ha
        split_ifs at ha with hp
        cases ha
        rw [hempty', hempty] at hp
        cases hp

/-- Witness for C8 with a concrete one-point script/address model in which
only the string "bc1q" parses back. -/
theorem c8_address_from_script_witness :
    (addressFromScript (fun (_ : Unit) (_ : Network) => some ())
        (fun _ => "bc1q") (fun s => if s = "bc1q" then some () else none)
        () Network.mainnet =
      addressFromScript (fun (_ : Unit) (_ : Network) => some ())
        (fun _ => "bc1q") (fun s => if s = "bc1q" then some () else none)
        () Network.mainnet) ∧
    ((fun (_ : Unit) (_ : Network) => some ()) () Network.mainnet = none →
      addressFromScript (fun (_ : Unit) (_ : Network) => some ())
        (fun _ => "bc1q") (fun s => if s = "bc1q" then some () else none)
        () Network.mainnet = .error .invalidAddress) ∧
    (∀ a, addressFromScript (fun (_ : Unit) (_ : Network) => some ())
        (fun _ => "bc1q") (fun s => if s = "bc1q" then some () else none)
        () Network.mainnet = .ok a →
      ((fun s => if s = "bc1q" then some () else none) a).isSome) ∧
    (∀ a, addressFromScript (fun (_ : Unit) (_ : Network) => some ())
        (fun _ => "bc1q") (fun s => if s = "bc1q" then some () else none)
        () Network.mainnet = .ok a → a ≠ "") :=
  c8_address_from_script (fun _ _ => some ()) (fun _ => "bc1q")
    (fun s => if s = "bc1q" then some () else none) () Network.mainnet
    (by decide)

/-! ## C7: composite address key layout -/

/-- **C7 counterexample.** The claim says every implementation produces
composite `(A, H, O)` keys whose first byte is the address length.  The
canister's `AddressUtxo` key (`canister/src/types.rs`) has no length byte:
for address `"a"` (UTF-8 `[97]`), height 0 and a zero outpoint, the key it
produces differs from the length-prefixed layout, and its first byte is 97,
not the address length 1. -/
theorem c7_counterexample :
    addressUtxoToBytes [97] 0 ⟨List.replicate 32 0, 0⟩ ≠
      ahoToBytes [97] 0 ⟨List.replicate 32 0, 0⟩ ∧
    (addressUtxoToBytes [97] 0 ⟨List.replicate 32 0, 0⟩).headD 0 = 97 := by
  constructor
  · decide
  · rfl

/-- **C7 (amended).** The `src/types.rs` composite key is
`len_u8 ‖ utf8(A) ‖ encode(H) ‖ encode(O)` — its first byte is the address
length, making the address prefix self-delimiting — for every address of
length at most 255; the canister's `AddressUtxo` implementation instead
produces `utf8(A) ‖ encode(H) ‖ encode(O)` with no length byte, delimited
from the end by its fixed-size 40-byte suffix. -/
theorem c7_composite_key_layout (a : List Nat) (h : Nat) (o : OutPoint)
    (ha : a.length ≤ 255) :
    ahoToBytes a h o = a.length :: (a ++ heightToBytes h ++ o.toBytes) ∧
    (ahoToBytes a h o).headD 0 = a.length ∧
    addressUtxoToBytes a h o = a ++ heightToBytes h ++ o.toBytes := by
  refine ⟨?_, ?_, rfl⟩
  · simp [ahoToBytes, addressToBytes]
  · simp [ahoToBytes, addressToBytes]

/-- Witness for the amended C7 at a concrete key. -/
theorem c7_composite_key_layout_witness :
    ahoToBytes [97, 98] 3 ⟨List.replicate 32 0, 0⟩ =
      2 :: ([97, 98] ++ heightToBytes 3 ++ OutPoint.toBytes ⟨List.replicate 32 0, 0⟩) ∧
    (ahoToBytes [97, 98] 3 ⟨List.replicate 32 0, 0⟩).headD 0 = 2 ∧
    addressUtxoToBytes [97, 98] 3 ⟨List.replicate 32 0, 0⟩ =
      [97, 98] ++ heightToBytes 3 ++ OutPoint.toBytes ⟨List.replicate 32 0, 0⟩ :=
  c7_composite_key_layout [97, 98] 3 ⟨List.replicate 32 0, 0⟩ (by decide)

/-! ## C10: txid caching (`Transaction`, `canister/src/types.rs`)

The underlying `bitcoin::Transaction` type and its expensive `txid()`
computation live in the external bitcoin crate; they appear as the opaque
type `Tx` and the function `computeTxid`.  The `RefCell<Option<Txid>>` cache
is interior mutability in a single-threaded host, so `txid()` is modelled as
returning the value together with the transaction's updated cache. -/

/-- `Transaction { tx: bitcoin::Transaction, txid: RefCell<Option<Txid>> }`. -/
structure Transaction (Tx : Type) where
  tx : Tx
  txid_cache : Option (List Nat)

/-- `Transaction::new`: the cache starts empty. -/
def Transaction.new {Tx : Type} (tx : Tx) : Transaction Tx :=
  { tx := tx, txid_cache := none }

/-- `Transaction::txid`: on the first call the txid is computed and stored in
the cache; afterwards the cached value is returned. -/
def Transaction.txid {Tx : Type} (computeTxid : Tx → List Nat)
    (t : Transaction Tx) : List Nat × Transaction Tx :=
  match t.txid_cache with
  | none =>
      let txid := computeTxid t.tx
      (txid, { t with txid_cache := some txid })
  | some txid => (txid, t)

/-- `PartialEq for Transaction`: the `txid` field is only a cache and is not
included in the comparison. -/
def transactionEq {Tx : Type} (t1 t2 : Transaction Tx) : Prop :=
  t1.tx = t2.tx

/-- **C10.** Txid-cache transparency: for a transaction whose cache is either
empty or holds the computed txid (the only states reachable from
`Transaction::new`), `txid()` returns the freshly computed txid of the
underlying transaction, does not change the transaction, populates the cache
with that same value so that every later call returns the same txid, and
`Transaction` equality depends only on the underlying bitcoin transaction,
never on the caches. -/
theorem c10_txid_cache_transparency {Tx : Type} (computeTxid : Tx → List Nat)
    (t : Transaction Tx)
    (hwf : t.txid_cache = none ∨ t.txid_cache = some (computeTxid t.tx)) :
    (Transaction.txid computeTxid t).1 = computeTxid t.tx ∧
    (Transaction.txid computeTxid t).2.tx = t.tx ∧
    (Transaction.txid computeTxid t).2.txid_cache = some (computeTxid t.tx) ∧
    Transaction.txid computeTxid (Transaction.txid computeTxid t).2 =
      (computeTxid t.tx, (Transaction.txid computeTxid t).2) ∧
    (Transaction.new t.tx).txid_cache = none ∧
    (∀ tx1 tx2 : Tx, ∀ c1 c2,
      transactionEq ⟨tx1, c1⟩ ⟨tx2, c2⟩ ↔ tx1 = tx2) := by
  obtain ⟨tx, cache⟩ := t
  rcases hwf with hc | hc <;> simp only at hc <;> subst hc <;>
    simp [Transaction.txid, Transaction.new, transactionEq]

/-- Witness for C10 at a concrete transaction model. -/
theorem c10_txid_cache_transparency_witness :
    (Transaction.txid (fun n => [n]) (⟨5, none⟩ : Transaction Nat)).1 = [5] ∧
    (Transaction.txid (fun n => [n]) (⟨5, none⟩ : Transaction Nat)).2.tx = 5 ∧
    (Transaction.txid (fun n => [n]) (⟨5, none⟩ : Transaction Nat)).2.txid_cache =
      some [5] ∧
    Transaction.txid (fun n => [n])
        (Transaction.txid (fun n => [n]) (⟨5, none⟩ : Transaction Nat)).2 =
      ([5], (Transaction.txid (fun n => [n]) (⟨5, none⟩ : Transaction Nat)).2) ∧
    (Transaction.new (5 : Nat)).txid_cache = none ∧
    (∀ tx1 tx2 : Nat, ∀ c1 c2,
      transactionEq ⟨tx1, c1⟩ ⟨tx2, c2⟩ ↔ tx1 = tx2) := by
  have := c10_txid_cache_transparency (fun n => [n])
    (⟨5, none⟩ : Transaction Nat) (Or.inl rfl)
  simpa using this

end BitcoinCanister
